import Mathlib

/-!
Shallow embedding of the `cli_template` repository (two Python files:
`main.py` and `validators.py`).

`main.py` builds an `argparse.ArgumentParser` with:
  * positional `source` (required, plain string),
  * positional `optional_destination` (`nargs` zero-or-one, default `"default_value"`),
  * `--files` (`nargs` zero-or-more, default `[]`),
  * `--required-files` (`nargs` one-or-more, no default),
  * `-v`/`--verbose` (`store_true` flag),
  * `-m`/`--mode` (choices `auto`/`manual`, default `"auto"`),
  * `-s`/`--size` (custom converter `parse_size`, default the string `"1MB"`,
    which argparse feeds through the converter when the option is absent).

The embedding models the argparse behaviour of exactly this configuration as a
pure function on token lists.  Modelled fragment (documented restrictions):
options are matched by their exact alias strings only (no unique-prefix
abbreviation, no `--opt=value` syntax, no short-option clustering, no `--`
separator token, and the automatic `-h`/`--help` action is omitted); a token is
classified as an option exactly when it begins with `-`, is not `-` itself,
does not match argparse\x27s negative-number pattern, and contains no space -
which is argparse\x27s classification for this parser, whose aliases contain no
digit-like option strings.  Python `float` used by `parse_size` is modelled on
the fragment of its grammar exercised here: optionally signed decimal literals
(digits with an optional fractional part), evaluated exactly as a decimal
rational `num / 10 ^ exp`; for such literals and products below `2 ^ 53` the
Python `float` computation is exact, so this exact model agrees with the
source.  Python `int()` applied to a float truncates toward zero, modelled by
truncating integer division.  The model does not represent IEEE-double
behaviour outside that regime: Python additionally accepts `inf`, `infinity`,
`nan`, exponent and underscore forms, rounds magnitudes at and above `2 ^ 53`,
and turns magnitudes beyond the double range into an infinity on which
`int()` raises an uncaught `OverflowError`.  Theorems whose truth would
otherwise depend on such inputs therefore carry explicit hypotheses
(`sizeModelFaithful` / a `2 ^ 53` bound) confining them to the
exactly-modelled fragment.
`validators.py` performs filesystem checks (`os.path.exists` / `isfile` /
`isdir`); the filesystem is modelled as a map from path strings to an optional
node type.
-/

/-! ### Python string and number primitives used by `parse_size` -/

/-- Value of a list of decimal digit characters. -/
def digitsToNat (l : List Char) : Nat :=
  l.foldl (fun a c => a * 10 + (c.toNat - 48)) 0

/-- The ASCII whitespace characters removed by Python `str.strip()`
(the further Unicode whitespace accepted by Python does not occur in any
input considered here). -/
def isPySpace (c : Char) : Bool :=
  c = ' ' || c = '\t' || c = '\n' || c = '\r' || c = '\x0b' || c = '\x0c'

/-- Python slice `s[:-2]`: all but the last two characters. -/
def pyDropLast2 (l : List Char) : List Char := l.take (l.length - 2)

/-- Python slice `s[-2:]`: the last two characters (the whole string when
shorter than two characters). -/
def pyLast2 (l : List Char) : List Char := l.drop (l.length - 2)

/-- Python `str.strip()` on the modelled whitespace set. -/
def pyStrip (l : List Char) : List Char :=
  ((l.dropWhile isPySpace).reverse.dropWhile isPySpace).reverse

/-- Exact value of a parsed decimal literal: `num / 10 ^ exp`.  On every
input relevant here the Python `float` value is this exact rational. -/
structure PyFloat where
  num : Int
  exp : Nat
deriving DecidableEq, Repr

/-- Unsigned part of the modelled Python `float` literal grammar:
`digits`, `digits.digits`, `digits.` or `.digits`. -/
def pyFloatCore (l : List Char) : Option PyFloat :=
  let ip := l.takeWhile Char.isDigit
  match l.dropWhile Char.isDigit with
  | [] => if ip.isEmpty then none else some ⟨digitsToNat ip, 0⟩
  | '.' :: frac =>
    if frac.all Char.isDigit && !(ip.isEmpty && frac.isEmpty) then
      some ⟨digitsToNat ip * 10 ^ frac.length + digitsToNat frac, frac.length⟩
    else none
  | _ => none

/-- Modelled Python `float(...)` conversion: an optional sign followed by a
decimal literal; every other input in the modelled fragment raises
`ValueError` (`none` here).  Python further accepts `inf`/`infinity`/`nan`,
exponents and underscore grouping, which this model does not represent:
theorems that would be sensitive to those inputs restrict their magnitude
slices to `floatModelSafe` characters, on which acceptance coincides. -/
def pyFloat (l : List Char) : Option PyFloat :=
  match l with
  | '-' :: rest => (pyFloatCore rest).map (fun f => ⟨-f.num, f.exp⟩)
  | '+' :: rest => pyFloatCore rest
  | _ => pyFloatCore l

/-- Python `int(size * factor)` where `size` is the exact decimal value
`f.num / 10 ^ f.exp`: multiplication followed by truncation toward zero. -/
def pyIntMul (f : PyFloat) (factor : Nat) : Int :=
  (f.num * factor).tdiv (10 ^ f.exp)

deriving instance DecidableEq for Except

/-- Exceptions raised inside the converters, as Python exception kinds. -/
inductive PyError
  | valueError (msg : String)
  | keyError (key : String)
deriving DecidableEq, Repr

/-- The `units` dictionary of `parse_size` in `main.py`:
`{'B': 1, 'KB': 1024, 'MB': 1024*1024, 'GB': 1024*1024*1024}`. -/
def unitsLookup (u : String) : Option Nat :=
  if u = "B" then some 1
  else if u = "KB" then some 1024
  else if u = "MB" then some (1024 * 1024)
  else if u = "GB" then some (1024 * 1024 * 1024)
  else none

/-- `parse_size` from `main.py`:
`size = float(size_str[:-2].strip())` (a failure here is a `ValueError`),
then `unit = size_str[-2:].upper()` and `units[unit]` (a missing key raises
`KeyError`), finally `int(size * units[unit])`. -/
def parse_size (s : String) : Except PyError Int :=
  match pyFloat (pyStrip (pyDropLast2 s.data)) with
  | none =>
    .error (.valueError ("could not convert string to float: \x27"
      ++ String.mk (pyStrip (pyDropLast2 s.data)) ++ "\x27"))
  | some size =>
    match unitsLookup (String.mk ((pyLast2 s.data).map Char.toUpper)) with
    | none => .error (.keyError (String.mk ((pyLast2 s.data).map Char.toUpper)))
    | some factor => .ok (pyIntMul size factor)

/-- Characters of a stripped magnitude on which the modelled `float` grammar
coincides with Python\x27s: ASCII, no underscore (Python digit grouping), no
`e`/`E` (exponent), no `i`/`I`/`n`/`N` (every spelling of `inf`, `infinity`
and `nan` contains one of these).  On strings of such characters Python
`float` succeeds exactly on the modelled decimal-literal grammar. -/
def floatModelSafe (c : Char) : Bool :=
  c.toNat < 128 && c ≠ '_' && c ≠ 'e' && c ≠ 'E' &&
    c ≠ 'i' && c ≠ 'I' && c ≠ 'n' && c ≠ 'N'

/-- A token lies in the exactly-modelled fragment of the size converter: its
stripped magnitude slice uses only `floatModelSafe` characters (so Python
`float` accepts it if and only if the model does, and never yields an
infinity), and when it parses, it is a plain integer numeral (no fractional
part) whose value times the largest unit factor `2 ^ 30` stays below `2 ^ 53`
- the regime where the IEEE-double computation of `parse_size` is exact and
finite, so that `int()` cannot raise `OverflowError` and agrees with the
exact model. -/
def sizeModelFaithful (t : String) : Bool :=
  (pyStrip (pyDropLast2 t.data)).all floatModelSafe &&
    (match pyFloat (pyStrip (pyDropLast2 t.data)) with
     | none => true
     | some f => f.exp = 0 && f.num.natAbs * 2 ^ 30 < 2 ^ 53)

/-- `parse_size` is applied exactly to the token following a `-s`/`--size`
marker (and to the default `"1MB"`): this checks every such value token is in
the exactly-modelled fragment. -/
def sizeValuesFaithful : List String → Bool
  | [] => true
  | [_] => true
  | t :: v :: rest =>
    (if t = "-s" || t = "--size" then sizeModelFaithful v else true) &&
      sizeValuesFaithful (v :: rest)

/-! ### The argparse engine for the parser configured in `main.py` -/

/-- argparse\x27s negative-number pattern for token classification
(regex `^-\d+$|^-\d*\.\d+$`). -/
def looksLikeNegNum (l : List Char) : Bool :=
  match l with
  | '-' :: rest =>
    let ds := rest.takeWhile Char.isDigit
    let rest2 := rest.dropWhile Char.isDigit
    (!ds.isEmpty && rest2.isEmpty) ||
      (match rest2 with
       | '.' :: frac => !frac.isEmpty && frac.all Char.isDigit
       | _ => false)
  | _ => false

/-- argparse token classification for this parser: a token is treated as an
option marker exactly when it begins with `-`, is not the bare `-`, does not
look like a negative number (this parser registers no numeric-looking
aliases), and contains no space. -/
def looksLikeOption (t : String) : Bool :=
  match t.data with
  | ['-'] => false
  | '-' :: _ => !looksLikeNegNum t.data && !t.data.contains ' '
  | _ => false

/-- The values accumulated while scanning the token list.  `none` fields are
arguments not (yet) supplied on the command line; `extras` collects tokens
argparse reports as unrecognized at the end. -/
structure ParseState where
  source : Option String := none
  optional_destination : Option String := none
  files : Option (List String) := none
  required_files : Option (List String) := none
  verbose : Bool := false
  mode : Option String := none
  size : Option Int := none
  extras : List String := []
deriving DecidableEq, Repr

/-- What the scanner is in the middle of consuming: a run of positional
tokens, the greedy value list of `--files` or `--required-files`, or the
single pending value of `-m`/`--mode` or `-s`/`--size`. -/
inductive Pending
  | nil
  | posRun (acc : List String)
  | filesCollect (acc : List String)
  | reqCollect (acc : List String)
  | needMode
  | needSize
deriving DecidableEq, Repr

/-- The user-facing parse failures of this parser (the spec\x27s error
taxonomy), plus `uncaught` for a Python exception that argparse does not
convert into its controlled error path (argparse catches only
`ArgumentTypeError`, `TypeError` and `ValueError` from converters). -/
inductive ParseError
  | missingArgument (name : String)
  | expectedAtLeastOne (name : String)
  | expectedOneArgument (name : String)
  | invalidChoice (name raw : String) (choices : List String)
  | invalidValue (name raw : String)
  | unrecognized (tokens : List String)
  | uncaught (e : PyError)
deriving DecidableEq, Repr

/-- Errors surfaced by argparse as a single diagnostic line naming the
offending argument, as opposed to an uncaught exception escaping the parse. -/
def ParseError.controlled : ParseError → Bool
  | .uncaught _ => false
  | _ => true

/-- The result namespace (`FileProcessorNamespace` in `main.py`) after a
successful parse. -/
structure ParseResult where
  source : String
  optional_destination : String
  files : List String
  required_files : Option (List String)
  verbose : Bool
  mode : String
  size : Int
deriving DecidableEq, Repr

/-- Match a completed run of positional tokens against the positional
declarations `source` (exactly one) and `optional_destination` (zero or one),
in declaration order; both are consumed by the first nonempty run, and any
leftover tokens of the run - or a whole later run - become unrecognized
extras. -/
def commitPos (st : ParseState) (acc : List String) : ParseState :=
  match acc with
  | [] => st
  | a :: rest =>
    if st.source.isSome then { st with extras := st.extras ++ acc }
    else
      match rest with
      | [] => { st with source := some a }
      | b :: more =>
        { st with source := some a, optional_destination := some b,
                  extras := st.extras ++ more }

/-- Begin consuming the option named by token `t` (already classified as an
option marker): the exact aliases registered in `main.py`, any other
option-looking token being collected as an unrecognized extra. -/
def dispatchOpt (st : ParseState) (t : String) : ParseState × Pending :=
  if t = "--files" then (st, .filesCollect [])
  else if t = "--required-files" then (st, .reqCollect [])
  else if t = "-v" || t = "--verbose" then ({ st with verbose := true }, .nil)
  else if t = "-m" || t = "--mode" then (st, .needMode)
  else if t = "-s" || t = "--size" then (st, .needSize)
  else ({ st with extras := st.extras ++ [t] }, .nil)

/-- Close the pending consumption at an option boundary or at the end of the
token list: `--files` accepts zero or more values, `--required-files` fails
with *expected at least one argument* on zero values, and `-m`/`-s` fail with
*expected one argument* when their single value is missing. -/
def commitPend (st : ParseState) (p : Pending) : Except ParseError ParseState :=
  match p with
  | .nil => .ok st
  | .posRun acc => .ok (commitPos st acc)
  | .filesCollect acc => .ok { st with files := some acc }
  | .reqCollect acc =>
    if acc.isEmpty then .error (.expectedAtLeastOne "--required-files")
    else .ok { st with required_files := some acc }
  | .needMode => .error (.expectedOneArgument "-m/--mode")
  | .needSize => .error (.expectedOneArgument "-s/--size")

/-- Process one token.  Option markers close the pending consumption and
dispatch; other tokens extend the pending consumption or satisfy a pending
single-value option, running its choice check (`-m`) or converter (`-s`)
immediately, a `ValueError` becoming the controlled *invalid value* error and
a `KeyError` escaping argparse uncaught. -/
def stepTok (sp : ParseState × Pending) (t : String) :
    Except ParseError (ParseState × Pending) :=
  if looksLikeOption t then
    match commitPend sp.1 sp.2 with
    | .error e => .error e
    | .ok st2 => .ok (dispatchOpt st2 t)
  else
    match sp.2 with
    | .nil => .ok (sp.1, .posRun [t])
    | .posRun acc => .ok (sp.1, .posRun (acc ++ [t]))
    | .filesCollect acc => .ok (sp.1, .filesCollect (acc ++ [t]))
    | .reqCollect acc => .ok (sp.1, .reqCollect (acc ++ [t]))
    | .needMode =>
      if t = "auto" || t = "manual" then .ok ({ sp.1 with mode := some t }, .nil)
      else .error (.invalidChoice "-m/--mode" t ["auto", "manual"])
    | .needSize =>
      match parse_size t with
      | .ok n => .ok ({ sp.1 with size := some n }, .nil)
      | .error (PyError.valueError _) => .error (.invalidValue "-s/--size" t)
      | .error (PyError.keyError k) => .error (.uncaught (.keyError k))

/-- Left-to-right scan over the whole token list. -/
def consume : ParseState × Pending → List String → Except ParseError (ParseState × Pending)
  | sp, [] => .ok sp
  | sp, t :: rest =>
    match stepTok sp t with
    | .error e => .error e
    | .ok sp2 => consume sp2 rest

/-- End-of-parse processing, in argparse\x27s order: the required positional
`source` must have been consumed; then string defaults of unseen options are
fed through their converters (the `--size` default `"1MB"`); unrecognized
extras are reported last; remaining defaults are filled in. -/
def finalize (st : ParseState) : Except ParseError ParseResult :=
  match st.source with
  | none => .error (.missingArgument "source")
  | some src =>
    match (match st.size with
           | some n => Except.ok n
           | none => parse_size "1MB") with
    | .error (PyError.valueError _) => .error (.invalidValue "-s/--size" "1MB")
    | .error (PyError.keyError k) => .error (.uncaught (.keyError k))
    | .ok sz =>
      if st.extras.isEmpty then
        .ok { source := src,
              optional_destination := st.optional_destination.getD "default_value",
              files := st.files.getD [],
              required_files := st.required_files,
              verbose := st.verbose,
              mode := st.mode.getD "auto",
              size := sz }
      else .error (.unrecognized st.extras)

/-- Close the final pending consumption and finalize. -/
def finishParse (sp : ParseState × Pending) : Except ParseError ParseResult :=
  match commitPend sp.1 sp.2 with
  | .error e => .error e
  | .ok st2 => finalize st2

/-- Scan the tokens from a given scanner configuration, then finish. -/
def consumeRun (sp : ParseState × Pending) (tokens : List String) :
    Except ParseError ParseResult :=
  match consume sp tokens with
  | .error e => .error e
  | .ok sp2 => finishParse sp2

/-- `parser.parse_args(tokens)` for the parser configured in `main.py`. -/
def parseArgs (tokens : List String) : Except ParseError ParseResult :=
  consumeRun ({}, Pending.nil) tokens

/-! ### The filesystem-validating variant (`validators.py`) -/

namespace Validators

/-- Kind of filesystem node a path resolves to (`other` covers existing
non-file non-directory nodes such as device files). -/
inductive FsType
  | file
  | dir
  | other
deriving DecidableEq, Repr

/-- Abstract snapshot of the filesystem consulted by `os.path`:
`none` means the path does not exist. -/
structure Fs where
  node : String → Option FsType

/-- `os.path.exists(path)`. -/
def os_path_exists (fs : Fs) (p : String) : Bool := (fs.node p).isSome

/-- `os.path.isfile(path)`: the path exists and is a regular file. -/
def os_path_isfile (fs : Fs) (p : String) : Bool := fs.node p = some FsType.file

/-- `os.path.isdir(path)`: the path exists and is a directory. -/
def os_path_isdir (fs : Fs) (p : String) : Bool := fs.node p = some FsType.dir

/-- The `file` converter of `validators.py`; the returned `pathlib.Path` is
modelled as the path string it wraps. -/
def file (fs : Fs) (path : String) : Except PyError String :=
  if !os_path_exists fs path then
    .error (.valueError ("Expected file, doesn\x27t exist: \x27" ++ path ++ "\x27"))
  else if !os_path_isfile fs path then
    .error (.valueError ("Expected file, received non-file: \x27" ++ path ++ "\x27"))
  else .ok path

/-- The `directory` converter of `validators.py`. -/
def directory (fs : Fs) (path : String) : Except PyError String :=
  if !os_path_exists fs path then
    .error (.valueError ("Expected directory, doesn\x27t exist: \x27" ++ path ++ "\x27"))
  else if !os_path_isdir fs path then
    .error (.valueError ("Expected directory, received non-directory: \x27" ++ path ++ "\x27"))
  else .ok path

/-- A small concrete filesystem: a directory at `"d"`, a regular file at
`"f"`, nothing else. -/
def fsExample : Fs :=
  ⟨fun p => if p = "d" then some FsType.dir
            else if p = "f" then some FsType.file
            else none⟩

end Validators

/-! ### Helper lemmas about the string primitives -/

theorem takeWhile_eq_self_of_all {p : Char → Bool} :
    ∀ {l : List Char}, (∀ c ∈ l, p c = true) → l.takeWhile p = l := by
  intro l h
  induction l with
  | nil => rfl
  | cons a t ih =>
    rw [List.takeWhile_cons, h a (by simp)]
    simp only [ite_true]
    rw [ih (fun c hc => h c (by simp [hc]))]

theorem dropWhile_eq_nil_of_all {p : Char → Bool} :
    ∀ {l : List Char}, (∀ c ∈ l, p c = true) → l.dropWhile p = [] := by
  intro l h
  induction l with
  | nil => rfl
  | cons a t ih =>
    rw [List.dropWhile_cons, h a (by simp)]
    simp only [ite_true]
    exact ih (fun c hc => h c (by simp [hc]))

theorem dropWhile_eq_self_of_all {p : Char → Bool} {l : List Char}
    (h : ∀ c ∈ l, p c = false) : l.dropWhile p = l := by
  cases l with
  | nil => rfl
  | cons a t => rw [List.dropWhile_cons, h a (by simp)]; simp

theorem pyStrip_eq_self {l : List Char} (h : ∀ c ∈ l, isPySpace c = false) :
    pyStrip l = l := by
  unfold pyStrip
  rw [dropWhile_eq_self_of_all h,
      dropWhile_eq_self_of_all (fun c hc => h c (List.mem_reverse.mp hc)),
      List.reverse_reverse]

theorem not_isPySpace_of_isDigit {c : Char} (h : c.isDigit = true) :
    isPySpace c = false := by
  rcases hc : isPySpace c
  · rfl
  · exfalso
    unfold isPySpace at hc
    simp only [Bool.or_eq_true, decide_eq_true_eq] at hc
    rcases hc with ((((hc | hc) | hc) | hc) | hc) | hc <;> subst hc <;>
      exact absurd h (by decide)

theorem isDigit_ne_signs {c : Char} (h : c.isDigit = true) :
    c ≠ '-' ∧ c ≠ '+' := by
  constructor <;> rintro rfl <;> exact absurd h (by decide)

theorem pyFloat_digits {l : List Char} (hne : l ≠ [])
    (hd : ∀ c ∈ l, c.isDigit = true) :
    pyFloat l = some ⟨(digitsToNat l : Int), 0⟩ := by
  obtain ⟨a, t, rfl⟩ := List.exists_cons_of_ne_nil hne
  have h1 : (a :: t).takeWhile Char.isDigit = a :: t := takeWhile_eq_self_of_all hd
  have h2 : (a :: t).dropWhile Char.isDigit = [] := dropWhile_eq_nil_of_all hd
  have hsig := isDigit_ne_signs (hd a (by simp))
  have hcore : pyFloatCore (a :: t) = some ⟨(digitsToNat (a :: t) : Int), 0⟩ := by
    unfold pyFloatCore
    rw [h2, h1]
    simp
  unfold pyFloat
  split
  · next rest heq =>
    exact absurd (List.head_eq_of_cons_eq heq) hsig.1
  · next rest heq =>
    exact absurd (List.head_eq_of_cons_eq heq) hsig.2
  · exact hcore

theorem pyDropLast2_append {ds u : List Char} (hu : u.length = 2) :
    pyDropLast2 (ds ++ u) = ds := by
  unfold pyDropLast2
  rw [List.length_append, hu, show ds.length + 2 - 2 = ds.length from by omega]
  exact List.take_left ds u

theorem pyLast2_append {ds u : List Char} (hu : u.length = 2) :
    pyLast2 (ds ++ u) = u := by
  unfold pyLast2
  rw [List.length_append, hu, show ds.length + 2 - 2 = ds.length from by omega]
  exact List.drop_left ds u

theorem dropWhile_append_all {p : Char → Bool} {w l : List Char}
    (hw : ∀ c ∈ w, p c = true) : (w ++ l).dropWhile p = l.dropWhile p := by
  induction w with
  | nil => rfl
  | cons a t ih =>
    rw [List.cons_append, List.dropWhile_cons, hw a (by simp)]
    simp only [ite_true]
    exact ih (fun c hc => hw c (by simp [hc]))

theorem pyStrip_pad {w₁ w₂ core : List Char}
    (h1 : ∀ c ∈ w₁, isPySpace c = true) (h2 : ∀ c ∈ w₂, isPySpace c = true) :
    pyStrip (w₁ ++ core ++ w₂) = pyStrip core := by
  unfold pyStrip
  rw [List.append_assoc, dropWhile_append_all h1]
  rcases hcase : (core.dropWhile isPySpace).isEmpty with _ | _
  · rw [List.dropWhile_append, hcase]
    simp only [Bool.false_eq_true, if_false]
    rw [List.reverse_append,
        dropWhile_append_all (fun c hc => h2 c (List.mem_reverse.mp hc))]
  · rw [List.dropWhile_append, hcase]
    simp only [if_true]
    rw [dropWhile_eq_nil_of_all h2]
    rw [List.isEmpty_iff] at hcase
    rw [hcase]

/-! ### Claims about `parse_size` -/

/-- C2: corrected.  For a magnitude given by a nonempty digit string `ds`
followed by a two-character unit `u` declared in the units table, with the
resulting byte count below `2 ^ 53` (the regime in which CPython computes
`int(float(ds) * factor)` exactly, so the exact model agrees with the
source; at and above it the double rounds, and magnitudes beyond the double
range overflow), `parse_size` returns the magnitude times the unit factor.
The two-character slice `size_str[-2:]` makes this hold only for the
two-character units `KB`, `MB`, `GB`; the declared single-character unit `B`
is unreachable (see the counterexample on `"500B"`). -/
theorem parse_size_wellformed (s : String) (ds u : List Char) (f : Nat)
    (hdata : s.data = ds ++ u) (hne : ds ≠ [])
    (hdig : ∀ c ∈ ds, c.isDigit = true) (hu : u.length = 2)
    (hf : unitsLookup (String.mk (u.map Char.toUpper)) = some f)
    (hbound : digitsToNat ds * f < 2 ^ 53) :
    parse_size s = .ok ((digitsToNat ds : Int) * f) := by
  have h1 : pyFloat (pyStrip (pyDropLast2 s.data)) = some ⟨(digitsToNat ds : Int), 0⟩ := by
    rw [hdata, pyDropLast2_append hu,
        pyStrip_eq_self (fun c hc => not_isPySpace_of_isDigit (hdig c hc)),
        pyFloat_digits hne hdig]
  have h2 : String.mk ((pyLast2 s.data).map Char.toUpper) = String.mk (u.map Char.toUpper) := by
    rw [hdata, pyLast2_append hu]
  simp only [parse_size, h1, h2, hf]
  simp [pyIntMul, Int.tdiv_one]

/-- C2 witness: `"500KB"` is well-formed, its byte count `512000` is below
`2 ^ 53`, and it converts to `500 * 1024`. -/
theorem parse_size_wellformed_witness : parse_size "500KB" = .ok 512000 := by
  have h := parse_size_wellformed "500KB" ['5', '0', '0'] ['K', 'B'] 1024
    (by decide) (by decide) (by decide) (by decide) (by decide) (by decide)
  simpa using h

/-- C2 counterexample: the claim includes the single-character unit `B`
(for example that `"500B"` converts to `500`), but `parse_size "500B"` takes
`"0B"` as the unit and raises `KeyError` instead of returning `500`. -/
theorem parse_size_single_B_counterexample :
    parse_size "500B" = .error (.keyError "0B") ∧ parse_size "500B" ≠ .ok 500 := by
  exact ⟨by decide, by decide⟩

/-- C9: for every input string whose all-but-last-two characters (stripped)
parse as a float but whose last two characters, uppercased, are not a key of
the units table, `parse_size` raises `KeyError` - not the `ValueError` that
argparse\x27s converter protocol catches. -/
theorem parse_size_keyError_escape (s : String) (f : PyFloat)
    (hf : pyFloat (pyStrip (pyDropLast2 s.data)) = some f)
    (hu : unitsLookup (String.mk ((pyLast2 s.data).map Char.toUpper)) = none) :
    parse_size s = .error (.keyError (String.mk ((pyLast2 s.data).map Char.toUpper))) := by
  simp only [parse_size, hf, hu]

/-- C9 witness: `"500XY"` has magnitude `500` and undeclared unit `"XY"`,
so `parse_size` raises `KeyError "XY"`. -/
theorem parse_size_keyError_escape_witness :
    parse_size "500XY" = .error (.keyError "XY") := by
  have h := parse_size_keyError_escape "500XY" ⟨500, 0⟩ (by decide) (by decide)
  simpa using h

/-- C10: the unit suffix is matched case-insensitively (any two strings with
the same magnitude part and unit slices agreeing up to `upper()` parse
identically), surrounding whitespace of the magnitude is stripped, and in
particular `"500kb"` converts to `512000`. -/
theorem parse_size_case_insensitive :
    (∀ (s₁ s₂ : String) (pre u₁ u₂ : List Char),
       s₁.data = pre ++ u₁ → s₂.data = pre ++ u₂ →
       u₁.length = 2 → u₂.length = 2 →
       u₁.map Char.toUpper = u₂.map Char.toUpper →
       parse_size s₁ = parse_size s₂) ∧
    (∀ (s₁ s₂ : String) (w₁ w₂ core u : List Char),
       s₁.data = (w₁ ++ core ++ w₂) ++ u → s₂.data = core ++ u →
       (∀ c ∈ w₁, isPySpace c = true) → (∀ c ∈ w₂, isPySpace c = true) →
       u.length = 2 →
       parse_size s₁ = parse_size s₂) ∧
    parse_size "500kb" = .ok 512000 := by
  refine ⟨?_, ?_, by decide⟩
  · intro s₁ s₂ pre u₁ u₂ h1 h2 hl1 hl2 hup
    simp only [parse_size, h1, h2, pyDropLast2_append hl1, pyDropLast2_append hl2,
      pyLast2_append hl1, pyLast2_append hl2, hup]
  · intro s₁ s₂ w₁ w₂ core u h1 h2 hw1 hw2 hu
    simp only [parse_size, h1, h2, pyDropLast2_append hu, pyLast2_append hu,
      pyStrip_pad hw1 hw2]

/-- C10 witness: `"500kb"` and `"500KB"` parse identically, and whitespace
around the magnitude (as in `" 500 KB"`) is ignored. -/
theorem parse_size_case_insensitive_witness :
    parse_size "500kb" = parse_size "500KB" ∧
    parse_size " 500 KB" = parse_size "500KB" := by
  constructor
  · exact parse_size_case_insensitive.1 "500kb" "500KB" ['5', '0', '0']
      ['k', 'b'] ['K', 'B'] (by decide) (by decide) (by decide) (by decide) (by decide)
  · exact parse_size_case_insensitive.2.1 " 500 KB" "500KB" [' '] [' ']
      ['5', '0', '0'] ['K', 'B'] (by decide) (by decide) (by decide) (by decide) (by decide)

/-! ### Helper lemmas about the parsing engine -/

theorem consume_append (l₁ : List String) :
    ∀ (sp : ParseState × Pending) (l₂ : List String),
      consume sp (l₁ ++ l₂) =
        match consume sp l₁ with
        | .error e => .error e
        | .ok sp2 => consume sp2 l₂ := by
  induction l₁ with
  | nil => intro sp l₂; rfl
  | cons t rest ih =>
    intro sp l₂
    show (match stepTok sp t with
          | Except.error e => Except.error e
          | Except.ok sp2 => consume sp2 (rest ++ l₂)) =
      match (match stepTok sp t with
             | Except.error e => Except.error e
             | Except.ok sp2 => consume sp2 rest) with
      | Except.error e => Except.error e
      | Except.ok sp2 => consume sp2 l₂
    cases hs : stepTok sp t with
    | error e => rfl
    | ok sp2 => exact ih sp2 l₂

theorem commitPos_required_files (st : ParseState) (acc : List String) :
    (commitPos st acc).required_files = st.required_files := by
  unfold commitPos
  rcases acc with _ | ⟨a, rest⟩
  · rfl
  · dsimp only
    split
    · rfl
    · rcases rest with _ | ⟨b, more⟩ <;> rfl

theorem commitPend_ok_required_files {st : ParseState} {p : Pending} {st2 : ParseState}
    (hp : ∀ acc, p ≠ Pending.reqCollect acc) (h : commitPend st p = .ok st2) :
    st2.required_files = st.required_files := by
  cases p with
  | nil =>
    simp only [commitPend] at h
    cases h
    rfl
  | posRun acc =>
    simp only [commitPend] at h
    cases h
    exact commitPos_required_files st acc
  | filesCollect acc =>
    simp only [commitPend] at h
    cases h
    rfl
  | reqCollect acc => exact absurd rfl (hp acc)
  | needMode => exact Except.noConfusion h
  | needSize => exact Except.noConfusion h

theorem dispatchOpt_noReq {st : ParseState} {t : String}
    (ht : t ≠ "--required-files") (h : st.required_files = none) :
    (dispatchOpt st t).1.required_files = none ∧
      ∀ acc, (dispatchOpt st t).2 ≠ Pending.reqCollect acc := by
  unfold dispatchOpt
  repeat' split
  all_goals simp_all

theorem stepTok_preserves_noReq {st : ParseState} {p : Pending} {t : String}
    {sp2 : ParseState × Pending}
    (h1 : st.required_files = none) (h2 : ∀ acc, p ≠ Pending.reqCollect acc)
    (ht : t ≠ "--required-files") (hs : stepTok (st, p) t = .ok sp2) :
    sp2.1.required_files = none ∧ ∀ acc, sp2.2 ≠ Pending.reqCollect acc := by
  unfold stepTok at hs
  by_cases hopt : looksLikeOption t = true
  · rw [if_pos hopt] at hs
    cases hcp : commitPend st p with
    | error e => rw [hcp] at hs; cases hs
    | ok stm =>
      rw [hcp] at hs
      cases hs
      exact dispatchOpt_noReq ht ((commitPend_ok_required_files h2 hcp).trans h1)
  · rw [if_neg hopt] at hs
    cases p with
    | nil => cases hs; exact ⟨h1, by intro acc hc; cases hc⟩
    | posRun acc => cases hs; exact ⟨h1, by intro acc hc; cases hc⟩
    | filesCollect acc => cases hs; exact ⟨h1, by intro acc hc; cases hc⟩
    | reqCollect acc => exact absurd rfl (h2 acc)
    | needMode =>
      dsimp only at hs
      split at hs
      · cases hs; exact ⟨h1, by intro acc hc; cases hc⟩
      · cases hs
    | needSize =>
      dsimp only at hs
      cases hps : parse_size t with
      | ok n =>
        simp only [hps] at hs
        cases hs
        exact ⟨h1, by intro acc hc; cases hc⟩
      | error e =>
        cases e <;> simp only [hps] at hs <;> exact Except.noConfusion hs

theorem consume_noReq : ∀ (toks : List String) (st : ParseState) (p : Pending)
    (sp2 : ParseState × Pending),
    st.required_files = none → (∀ acc, p ≠ Pending.reqCollect acc) →
    "--required-files" ∉ toks → consume (st, p) toks = .ok sp2 →
    sp2.1.required_files = none ∧ ∀ acc, sp2.2 ≠ Pending.reqCollect acc := by
  intro toks
  induction toks with
  | nil =>
    intro st p sp2 h1 h2 _ hc
    cases hc
    exact ⟨h1, h2⟩
  | cons t rest ih =>
    intro st p sp2 h1 h2 hmem hc
    simp only [List.mem_cons, not_or] at hmem
    have hc2 : (match stepTok (st, p) t with
                | Except.error e => Except.error e
                | Except.ok spm => consume spm rest) = Except.ok sp2 := hc
    cases hs : stepTok (st, p) t with
    | error e => rw [hs] at hc2; exact Except.noConfusion hc2
    | ok spm =>
      rw [hs] at hc2
      obtain ⟨stm, pm⟩ := spm
      have hpres := stepTok_preserves_noReq h1 h2 (fun he => hmem.1 he.symm) hs
      exact ih stm pm sp2 hpres.1 hpres.2 hmem.2 hc2

theorem finalize_ok_required_files {st : ParseState} {r : ParseResult}
    (h : finalize st = .ok r) : r.required_files = st.required_files := by
  unfold finalize at h
  cases hsrc : st.source with
  | none => rw [hsrc] at h; exact Except.noConfusion h
  | some src =>
    rw [hsrc] at h
    cases hsz : st.size with
    | some n =>
      simp only [hsz] at h
      split at h
      · cases h; rfl
      · exact Except.noConfusion h
    | none =>
      simp only [hsz] at h
      rw [show parse_size "1MB" = Except.ok 1048576 from by decide] at h
      simp only [] at h
      split at h
      · cases h; rfl
      · exact Except.noConfusion h

theorem consumeRun_append (l₁ : List String) (sp : ParseState × Pending)
    (l₂ : List String) :
    consumeRun sp (l₁ ++ l₂) =
      match consume sp l₁ with
      | Except.error e => Except.error e
      | Except.ok sp2 => consumeRun sp2 l₂ := by
  unfold consumeRun
  rw [consume_append l₁ sp l₂]
  cases consume sp l₁ <;> rfl

theorem stepTok_reqToken (st : ParseState) (p : Pending)
    (hm : p ≠ Pending.needMode) (hs : p ≠ Pending.needSize) :
    stepTok (st, p) "--required-files" =
        .error (.expectedAtLeastOne "--required-files") ∨
    ∃ st2, stepTok (st, p) "--required-files" = .ok (st2, Pending.reqCollect []) := by
  cases p with
  | nil => exact .inr ⟨st, rfl⟩
  | posRun acc => exact .inr ⟨commitPos st acc, rfl⟩
  | filesCollect acc => exact .inr ⟨{ st with files := some acc }, rfl⟩
  | reqCollect acc =>
    cases acc with
    | nil => exact .inl rfl
    | cons a t => exact .inr ⟨{ st with required_files := some (a :: t) }, rfl⟩
  | needMode => exact absurd rfl hm
  | needSize => exact absurd rfl hs

theorem consumeRun_reqCollect_nil (st : ParseState) (post : List String)
    (hpost : post = [] ∨ ∃ t ts, post = t :: ts ∧ looksLikeOption t = true) :
    consumeRun (st, Pending.reqCollect []) post =
      .error (.expectedAtLeastOne "--required-files") := by
  rcases hpost with rfl | ⟨t, ts, rfl, hopt⟩
  · rfl
  · have hstep : stepTok (st, Pending.reqCollect []) t =
        .error (.expectedAtLeastOne "--required-files") := by
      unfold stepTok
      rw [hopt]
      rfl
    unfold consumeRun
    have hcons : consume (st, Pending.reqCollect []) (t :: ts) =
        Except.error (.expectedAtLeastOne "--required-files") := by
      show (match stepTok (st, Pending.reqCollect []) t with
            | Except.error e => Except.error e
            | Except.ok sp2 => consume sp2 ts) = _
      rw [hstep]
    rw [hcons]

/-! ### Claims about the parsing engine -/

/-- C4: corrected.  Omitting `--required-files` yields it absent (`none`) in
every successful parse.  Supplying `--required-files` with zero following
value tokens makes the parse fail; the failure is the *expected at least one
argument* error provided the scan of the preceding tokens itself succeeded
and was not awaiting the single value of `-m`/`--mode` or `-s`/`--size`
(otherwise an earlier argument error is reported first, see the
counterexample). -/
theorem required_files_behavior :
    (∀ (tokens : List String) (r : ParseResult), "--required-files" ∉ tokens →
       parseArgs tokens = .ok r → r.required_files = none) ∧
    (∀ (pre post : List String) (sp : ParseState × Pending),
       consume ({}, Pending.nil) pre = .ok sp →
       sp.2 ≠ Pending.needMode → sp.2 ≠ Pending.needSize →
       (post = [] ∨ ∃ t ts, post = t :: ts ∧ looksLikeOption t = true) →
       parseArgs (pre ++ "--required-files" :: post) =
         .error (.expectedAtLeastOne "--required-files")) := by
  constructor
  · intro tokens r hmem h
    unfold parseArgs consumeRun at h
    cases hc : consume ({}, Pending.nil) tokens with
    | error e => rw [hc] at h; exact Except.noConfusion h
    | ok sp =>
      rw [hc] at h
      obtain ⟨st, p⟩ := sp
      have hn := consume_noReq tokens {} Pending.nil (st, p) rfl
        (fun acc hc2 => by cases hc2) hmem hc
      have h2 : (match commitPend st p with
                 | Except.error e => Except.error e
                 | Except.ok st2 => finalize st2) = Except.ok r := h
      cases hcp : commitPend st p with
      | error e => rw [hcp] at h2; exact Except.noConfusion h2
      | ok st2 =>
        rw [hcp] at h2
        rw [finalize_ok_required_files h2,
            commitPend_ok_required_files hn.2 hcp]
        exact hn.1
  · intro pre post sp hpre hm hs hpost
    obtain ⟨st, p⟩ := sp
    unfold parseArgs
    rw [consumeRun_append pre ({}, Pending.nil) ("--required-files" :: post), hpre]
    show consumeRun (st, p) ("--required-files" :: post) = _
    rcases stepTok_reqToken st p hm hs with herr | ⟨st2, hok⟩
    · unfold consumeRun
      have hcons : consume (st, p) ("--required-files" :: post) =
          Except.error (.expectedAtLeastOne "--required-files") := by
        show (match stepTok (st, p) "--required-files" with
              | Except.error e => Except.error e
              | Except.ok sp2 => consume sp2 post) = _
        rw [herr]
      rw [hcons]
    · have hcons : consumeRun (st, p) ("--required-files" :: post) =
          consumeRun (st2, Pending.reqCollect []) post := by
        unfold consumeRun
        have : consume (st, p) ("--required-files" :: post) =
            consume (st2, Pending.reqCollect []) post := by
          show (match stepTok (st, p) "--required-files" with
                | Except.error e => Except.error e
                | Except.ok sp2 => consume sp2 post) = _
          rw [hok]
        rw [this]
      rw [hcons]
      exact consumeRun_reqCollect_nil st2 post hpost

/-- C4 counterexample: in `src --mode bad --required-files` the option
`--required-files` is followed by end of input, yet the parse fails with the
invalid-choice error for `--mode` (the first error wins), not with the
missing-argument error the claim requires for every such token sequence. -/
theorem required_files_counterexample :
    parseArgs ["src", "--mode", "bad", "--required-files"] =
      .error (.invalidChoice "-m/--mode" "bad" ["auto", "manual"]) ∧
    parseArgs ["src", "--mode", "bad", "--required-files"] ≠
      .error (.expectedAtLeastOne "--required-files") := by
  exact ⟨by decide, by decide⟩

/-- C4 witness: `["src"]` has no `--required-files` and parses with it
absent; `["src", "--required-files"]` fails with *expected at least one
argument*. -/
theorem required_files_behavior_witness :
    (⟨"src", "default_value", [], none, false, "auto", 1048576⟩ :
        ParseResult).required_files = none ∧
    parseArgs ["src", "--required-files"] =
      .error (.expectedAtLeastOne "--required-files") := by
  constructor
  · exact required_files_behavior.1 ["src"]
      ⟨"src", "default_value", [], none, false, "auto", 1048576⟩
      (by decide) (by decide)
  · exact required_files_behavior.2 ["src"] []
      ({}, Pending.posRun ["src"])
      (by decide) (by decide) (by decide) (Or.inl rfl)

theorem commitPend_error_controlled {st : ParseState} {p : Pending} {e : ParseError}
    (h : commitPend st p = .error e) : e.controlled = true := by
  cases p with
  | nil => exact Except.noConfusion h
  | posRun acc => exact Except.noConfusion h
  | filesCollect acc => exact Except.noConfusion h
  | reqCollect acc =>
    have hcomm : commitPend st (Pending.reqCollect acc) =
        if acc.isEmpty then Except.error (ParseError.expectedAtLeastOne "--required-files")
        else Except.ok { st with required_files := some acc } := rfl
    rw [hcomm] at h
    split at h
    · cases h; rfl
    · exact Except.noConfusion h
  | needMode => cases h; rfl
  | needSize => cases h; rfl

theorem stepTok_error_shape {sp : ParseState × Pending} {t : String} {e : ParseError}
    (h : stepTok sp t = .error e) :
    e.controlled = true ∨ ∃ k, e = .uncaught (.keyError k) := by
  obtain ⟨st, p⟩ := sp
  unfold stepTok at h
  by_cases hopt : looksLikeOption t = true
  · rw [if_pos hopt] at h
    cases hcp : commitPend st p with
    | error e2 =>
      rw [hcp] at h
      cases h
      exact .inl (commitPend_error_controlled hcp)
    | ok st2 => rw [hcp] at h; exact Except.noConfusion h
  · rw [if_neg hopt] at h
    cases p with
    | nil => exact Except.noConfusion h
    | posRun acc => exact Except.noConfusion h
    | filesCollect acc => exact Except.noConfusion h
    | reqCollect acc => exact Except.noConfusion h
    | needMode =>
      dsimp only at h
      split at h
      · exact Except.noConfusion h
      · cases h; exact .inl rfl
    | needSize =>
      dsimp only at h
      cases hps : parse_size t with
      | ok n => simp only [hps] at h; exact Except.noConfusion h
      | error pe =>
        cases pe with
        | valueError m => simp only [hps] at h; cases h; exact .inl rfl
        | keyError k =>
          simp only [hps] at h
          cases h
          exact .inr ⟨k, rfl⟩

theorem consume_error_shape : ∀ (toks : List String) (sp : ParseState × Pending)
    (e : ParseError), consume sp toks = .error e →
    e.controlled = true ∨ ∃ k, e = .uncaught (.keyError k) := by
  intro toks
  induction toks with
  | nil => intro sp e h; exact Except.noConfusion h
  | cons t rest ih =>
    intro sp e h
    have h2 : (match stepTok sp t with
               | Except.error e2 => Except.error e2
               | Except.ok sp2 => consume sp2 rest) = Except.error e := h
    cases hs : stepTok sp t with
    | error e2 =>
      rw [hs] at h2
      cases h2
      exact stepTok_error_shape hs
    | ok sp2 =>
      rw [hs] at h2
      exact ih sp2 e h2

theorem finalize_error_controlled {st : ParseState} {e : ParseError}
    (h : finalize st = .error e) : e.controlled = true := by
  unfold finalize at h
  cases hsrc : st.source with
  | none => rw [hsrc] at h; cases h; rfl
  | some src =>
    rw [hsrc] at h
    cases hsz : st.size with
    | some n =>
      simp only [hsz] at h
      split at h
      · exact Except.noConfusion h
      · cases h; rfl
    | none =>
      simp only [hsz] at h
      rw [show parse_size "1MB" = Except.ok 1048576 from by decide] at h
      simp only [] at h
      split at h
      · exact Except.noConfusion h
      · cases h; rfl

theorem finishParse_error_controlled {sp : ParseState × Pending} {e : ParseError}
    (h : finishParse sp = .error e) : e.controlled = true := by
  unfold finishParse at h
  cases hcp : commitPend sp.1 sp.2 with
  | error e2 =>
    rw [hcp] at h
    cases h
    exact commitPend_error_controlled hcp
  | ok st2 =>
    rw [hcp] at h
    exact finalize_error_controlled h

/-- C7: corrected.  For every token sequence whose `-s`/`--size` value
tokens lie in the exactly-modelled fragment of the converter
(`sizeValuesFaithful`: the magnitude is either rejected by `float` or is a
plain small integer numeral, so the CPython computation is exact and finite),
the parse either succeeds, or fails with a single controlled error that
names the offending argument, or - the case the claim overlooks - fails with
an uncaught `KeyError` escaping the size converter.  The counterexample
shows the `KeyError` case is reachable, refuting *every failing converter
input produces the controlled error*.  Outside the fragment the program has
a further uncontrolled escape the original claim also rules out: `float`
yields an infinity (`--size infMB`, or a magnitude beyond the double range)
and `int(inf * factor)` raises an uncaught `OverflowError`, which this
embedding does not represent - hence the hypothesis. -/
theorem parse_exit_discipline (tokens : List String)
    (hdom : sizeValuesFaithful tokens = true) :
    (∃ r, parseArgs tokens = .ok r) ∨
    (∃ e, parseArgs tokens = .error e ∧ e.controlled = true) ∨
    (∃ k, parseArgs tokens = .error (.uncaught (.keyError k))) := by
  have hdef : parseArgs tokens =
      (match consume ({}, Pending.nil) tokens with
       | Except.error e => Except.error e
       | Except.ok sp2 => finishParse sp2) := rfl
  cases hc : consume ({}, Pending.nil) tokens with
  | error e =>
    rw [hc] at hdef
    rcases consume_error_shape tokens _ e hc with hctrl | ⟨k, rfl⟩
    · exact .inr (.inl ⟨e, hdef, hctrl⟩)
    · exact .inr (.inr ⟨k, hdef⟩)
  | ok sp =>
    rw [hc] at hdef
    dsimp only at hdef
    cases hf : finishParse sp with
    | error e =>
      rw [hf] at hdef
      exact .inr (.inl ⟨e, hdef, finishParse_error_controlled hf⟩)
    | ok r =>
      rw [hf] at hdef
      exact .inl ⟨r, hdef⟩

/-- C7 counterexample: the converter input `100XY` fails, but the failure is
an uncaught `KeyError`, not the controlled single-line argparse error the
claim promises for every failing converter input. -/
theorem parse_exit_discipline_counterexample :
    parseArgs ["src", "--size", "100XY"] = .error (.uncaught (.keyError "XY")) ∧
    ParseError.controlled (.uncaught (.keyError "XY")) = false := by
  exact ⟨by decide, rfl⟩

/-- C7 witness: `["src", "--size", "500KB"]` has its single size value in the
exactly-modelled fragment, and the trichotomy holds there. -/
theorem parse_exit_discipline_witness :
    (∃ r, parseArgs ["src", "--size", "500KB"] = .ok r) ∨
    (∃ e, parseArgs ["src", "--size", "500KB"] = .error e ∧ e.controlled = true) ∨
    (∃ k, parseArgs ["src", "--size", "500KB"] =
      .error (.uncaught (.keyError k))) :=
  parse_exit_discipline ["src", "--size", "500KB"] (by decide)

/-! ### The remaining claims -/

/-- C1: `--size 500KB` parses to size 512000; omitting `--size` yields the
default 1048576 (the string default `"1MB"` fed through the converter); and
`--size 5g` fails with the controlled invalid-value error for `-s`/`--size`
(the slice `"5g"[:-2]` is empty, so `float` raises `ValueError`). -/
theorem size_argument_examples :
    parseArgs ["src", "--size", "500KB"] =
      .ok ⟨"src", "default_value", [], none, false, "auto", 512000⟩ ∧
    parseArgs ["src"] =
      .ok ⟨"src", "default_value", [], none, false, "auto", 1048576⟩ ∧
    parseArgs ["src", "--size", "5g"] = .error (.invalidValue "-s/--size" "5g") := by
  exact ⟨by decide, by decide, by decide⟩

/-- C3: supplying only the required positional yields every other argument at
its default: destination `"default_value"`, files empty, verbose false, mode
`"auto"`, size 1048576, and `--required-files` absent. -/
theorem positional_only_defaults :
    parseArgs ["my_source"] =
      .ok ⟨"my_source", "default_value", [], none, false, "auto", 1048576⟩ := by
  decide

/-- C5: `--mode manual` parses to mode `"manual"`; `--mode nonexistent`
fails with the invalid-choice error carrying the allowed values
`auto` and `manual`. -/
theorem mode_choice_behavior :
    parseArgs ["src", "--mode", "manual"] =
      .ok ⟨"src", "default_value", [], none, false, "manual", 1048576⟩ ∧
    parseArgs ["src", "--mode", "nonexistent"] =
      .error (.invalidChoice "-m/--mode" "nonexistent" ["auto", "manual"]) := by
  exact ⟨by decide, by decide⟩

/-- C8: parsing is deterministic and idempotent - the engine is a pure
function of the token list (it reads no state other than its input), so two
parses of the same tokens are equal. -/
theorem parse_idempotent (tokens : List String) : parseArgs tokens = parseArgs tokens := rfl

/-- C6: in the validators variant, a nonexistent path given to the
`directory` converter fails with a message embedding that path; an existing
directory given to the `file` converter fails with the non-file message,
which differs from the doesn\x27t-exist message; and each converter succeeds
exactly when the path resolves to the required node kind. -/
theorem validators_behavior :
    (∀ (fs : Validators.Fs) (p : String), Validators.os_path_exists fs p = false →
       Validators.directory fs p =
         .error (.valueError ("Expected directory, doesn\x27t exist: \x27" ++ p ++ "\x27"))) ∧
    (∀ (fs : Validators.Fs) (p : String), fs.node p = some Validators.FsType.dir →
       Validators.file fs p =
         .error (.valueError ("Expected file, received non-file: \x27" ++ p ++ "\x27")) ∧
       ("Expected file, received non-file: \x27" ++ p ++ "\x27" ≠
         "Expected file, doesn\x27t exist: \x27" ++ p ++ "\x27")) ∧
    (∀ (fs : Validators.Fs) (p : String),
       ((∃ v, Validators.file fs p = .ok v) ↔ fs.node p = some Validators.FsType.file) ∧
       ((∃ v, Validators.directory fs p = .ok v) ↔ fs.node p = some Validators.FsType.dir)) := by
  refine ⟨?_, ?_, ?_⟩
  · intro fs p h
    unfold Validators.directory
    rw [h]
    rfl
  · intro fs p h
    constructor
    · unfold Validators.file Validators.os_path_exists Validators.os_path_isfile
      rw [h]
      rfl
    · intro heq
      have hlen := congrArg String.length heq
      simp only [String.length_append] at hlen
      have h1 : ("Expected file, received non-file: \x27").length = 35 := rfl
      have h2 : ("Expected file, doesn\x27t exist: \x27").length = 31 := rfl
      omega
  · intro fs p
    constructor
    · constructor
      · intro ⟨v, hv⟩
        unfold Validators.file Validators.os_path_exists Validators.os_path_isfile at hv
        cases hn : fs.node p with
        | none => rw [hn] at hv; exact Except.noConfusion hv
        | some ty =>
          rw [hn] at hv
          cases ty with
          | file => simp [hn]
          | dir => exact Except.noConfusion hv
          | other => exact Except.noConfusion hv
      · intro hn
        exact ⟨p, by unfold Validators.file Validators.os_path_exists Validators.os_path_isfile
                     rw [hn]; rfl⟩
    · constructor
      · intro ⟨v, hv⟩
        unfold Validators.directory Validators.os_path_exists Validators.os_path_isdir at hv
        cases hn : fs.node p with
        | none => rw [hn] at hv; exact Except.noConfusion hv
        | some ty =>
          rw [hn] at hv
          cases ty with
          | file => exact Except.noConfusion hv
          | dir => simp [hn]
          | other => exact Except.noConfusion hv
      · intro hn
        exact ⟨p, by unfold Validators.directory Validators.os_path_exists Validators.os_path_isdir
                     rw [hn]; rfl⟩

/-- C6 witness: on the concrete filesystem with directory `"d"` and file
`"f"`, the converters behave as claimed at the paths `"missing"`, `"d"` and
`"f"`. -/
theorem validators_behavior_witness :
    Validators.directory Validators.fsExample "missing" =
      .error (.valueError "Expected directory, doesn\x27t exist: \x27missing\x27") ∧
    Validators.file Validators.fsExample "d" =
      .error (.valueError "Expected file, received non-file: \x27d\x27") ∧
    (∃ v, Validators.file Validators.fsExample "f" = .ok v) := by
  refine ⟨?_, ?_, ?_⟩
  · have h := validators_behavior.1 Validators.fsExample "missing" (by decide)
    simpa using h
  · have h := (validators_behavior.2.1 Validators.fsExample "d" (by decide)).1
    simpa using h
  · exact (validators_behavior.2.2 Validators.fsExample "f").1.mpr (by decide)
